import Mathlib

/-!
Verification development for the DU Preference Maker repository.

The repository's core is an eligibility filtering and ranking engine over a
table of admission cutoff scores (pandas DataFrames in `main_app.py` and
`du_pref_app.py`).  This file gives a shallow embedding of that engine:

* CSV cells are modelled by `DuPref.Cell` (a numeric value, a non-numeric
  text value, or a blank/NaN field); `pd.to_numeric(..., errors="coerce")`
  maps non-numeric cells to `none`.
* A raw CSV file is `DuPref.RawTable` (header plus positional body rows).
* The loaders normalise column names with `trim` and `toUpper` and coerce
  the category columns, as `load_cutoff_data` (main_app.py) and `load_data`
  (du_pref_app.py) do.  `load_cutoff_data` catches a missing file and
  returns an empty table; `load_data` has no handler and propagates the
  error, which is modelled with `Except`.
* `sort_values(by=..., ascending=False)` is modelled after pandas'
  `nargsort`: for `ascending=False` it reverses the values and their
  indices, takes the stable ascending argsort, and reverses the resulting
  indexer again, so the descending sort is the reverse of a stable
  ascending sort of the reversed input — a stable descending sort in which
  tied rows keep their original table order.
* The tab-1 preference finder of `main_app.py` is `DuPref.findPreferences`,
  returning an `Outcome`; the analogous flow of `du_pref_app.py` is
  `DuPref.duFindPreferences`.
* The analytics aggregate `groupby("COLLEGE NAME")[cat].mean().dropna()` is
  `DuPref.averageByCollege`; the CSV download of the eligible frame is
  `DuPref.exportCSV`.
-/

namespace DuPref

/-- Python's `str.lower()`, modelled per character (the data handled by the
apps is plain ASCII). -/
def lowerStr (s : String) : String := ⟨s.data.map Char.toLower⟩

/-- Python's `str.upper()`, modelled per character. -/
def upperStr (s : String) : String := ⟨s.data.map Char.toUpper⟩

/-- Python's `str.strip()`: remove leading and trailing whitespace. -/
def trimStr (s : String) : String :=
  ⟨((s.data.dropWhile Char.isWhitespace).reverse.dropWhile Char.isWhitespace).reverse⟩

/-- Value of one CSV field: a numeric cell, a non-numeric text cell, or a
blank field (pandas reads a blank field as NaN). -/
inductive Cell where
  | num (q : ℚ)
  | str (s : String)
  | blank
deriving Repr, DecidableEq

/-- Model of `pd.to_numeric(x, errors="coerce")` on one cell: numeric cells
keep their value, everything else becomes missing. -/
def Cell.toNumeric : Cell → Option ℚ
  | .num q => some q
  | .str _ => none
  | .blank => none

/-- Rendering a cell as text (used for the identity columns, which pandas
keeps as objects / coerces with `astype(str)`). -/
def Cell.asString : Cell → String
  | .num q => toString q
  | .str s => s
  | .blank => ""

/-- Writing a possibly-missing numeric value back to a CSV cell, as
`DataFrame.to_csv` does: a NaN becomes an empty field. -/
def Cell.ofOptQ : Option ℚ → Cell
  | some q => .num q
  | none => .blank

/-- A raw CSV file: a header row and positional body rows. -/
structure RawTable where
  header : List String
  body : List (List Cell)
deriving Repr, DecidableEq

/-- One row of the loaded cutoff table: the two identity columns plus the
numeric-coerced category columns (association list keyed by the normalised
column name; a value `none` is a missing (NaN) cutoff). -/
structure Row where
  college : String
  program : String
  vals : List (String × Option ℚ)
deriving Repr, DecidableEq

/-- The cutoff value of a row for a category column: `none` when the column
is absent from the row or the cell is missing. -/
def Row.lookupVal (r : Row) (cat : String) : Option ℚ :=
  (r.vals.lookup cat).join

/-- A loaded cutoff table: the normalised column names and the rows. -/
structure CutoffTable where
  cols : List String
  rows : List Row
deriving Repr, DecidableEq

/-- Column-name normalisation of the loaders:
`df.columns = [c.strip().upper() for c in df.columns]`. -/
def normHeader (h : List String) : List String :=
  h.map (fun c => upperStr (trimStr c))

/-- Index of the first column with the given name, if any. -/
def colIdx : List String → String → Option Nat
  | [], _ => none
  | h :: t, c => if h = c then some 0 else (colIdx t c).map (· + 1)

/-- The cell of a positional row under a named column. -/
def cellAt (cols : List String) (row : List Cell) (c : String) : Option Cell :=
  match colIdx cols c with
  | none => none
  | some i => row[i]?

/-- The category columns coerced to numeric by `main_app.load_cutoff_data`:
`["UR", "OBC", "SC", "ST", "EWS", "PWBD"]`. -/
def mainCats : List String := ["UR", "OBC", "SC", "ST", "EWS", "PWBD"]

/-- The category list of `du_pref_app.load_data`'s coercion loop, written
there as `["UR", "OBC", "SC", "ST", "EWS", "PwBD"]` (mixed case). -/
def duCats : List String := ["UR", "OBC", "SC", "ST", "EWS", "PwBD"]

/-- Build one loaded row from a positional body row, keeping the identity
columns as text and the listed category columns coerced to numeric. -/
def loadRow (cats : List String) (cols : List String) (row : List Cell) : Row :=
  { college := ((cellAt cols row "COLLEGE NAME").getD .blank).asString
    program := ((cellAt cols row "PROGRAM NAME").getD .blank).asString
    vals := cats.filterMap (fun c =>
      if c ∈ cols then some (c, ((cellAt cols row c).getD .blank).toNumeric) else none) }

/-- `main_app.load_cutoff_data`: reads the CSV, normalises the column
names, coerces the `mainCats` columns; on `FileNotFoundError` (modelled by
an absent input, `none`) it returns an empty DataFrame. -/
def load_cutoff_data : Option RawTable → CutoffTable
  | none => { cols := [], rows := [] }
  | some raw =>
      let cols := normHeader raw.header
      { cols := cols, rows := raw.body.map (loadRow mainCats cols) }

/-- `du_pref_app.load_data`: same normalisation but the coercion loop uses
the literal `"PwBD"`, and there is no `try`/`except`, so an absent file
propagates the read error. -/
def du_load_data : Option RawTable → Except String CutoffTable
  | none => .error "FileNotFoundError"
  | some raw =>
      let cols := normHeader raw.header
      .ok { cols := cols, rows := raw.body.map (loadRow duCats cols) }

/-- `main_app.filter_program_df`: empty frames pass through; otherwise keep
the rows whose program matches case-insensitively, and intersect with the
allowlist when `girls_only` is set. -/
def filter_program_df (df : CutoffTable) (program : String) (girls_only : Bool)
    (girls : List String) : CutoffTable :=
  if df.rows.isEmpty then df
  else
    let f := df.rows.filter (fun r => lowerStr r.program == lowerStr program)
    let f2 := if girls_only then f.filter (fun r => girls.contains r.college) else f
    { cols := df.cols, rows := f2 }

/-- The girls' colleges allowlist hard-coded in both apps. -/
def girls_colleges : List String :=
  ["Aditi Mahavidyalaya (W)", "Bhagini Nivedita College (W)", "Bharati College (W)",
   "Miranda House", "Gargi College (W)", "Lady Shri Ram College for Women (W)",
   "Lakshmibai College (W)", "Daulat Ram College (W)", "Indraprastha College for Women (W)",
   "Maitreyi College (W)", "Jesus & Mary College (W)", "Kamala Nehru College (W)",
   "Janki Devi Memorial College (W)", "Institute of Home Economics (W)",
   "Kalindi College (W)", "Shaheed Rajguru College of Applied Sciences for Women (W)",
   "Mata Sundri College for Women (W)", "Shyama Prasad Mukherjee College for Women (W)",
   "Vivekananda College (W)"]

/-- `prog_df.dropna(subset=[category])`: drop the rows whose value for the
category is missing. -/
def dropna (cat : String) (rows : List Row) : List Row :=
  rows.filter (fun r => (r.lookupVal cat).isSome)

/-- The eligibility test `prog_df[category] <= marks` on one row; a missing
value compares as `False` in pandas. -/
def eligPred (cat : String) (marks : ℚ) (r : Row) : Bool :=
  match r.lookupVal cat with
  | some v => decide (v ≤ marks)
  | none => false

/-- The eligible set of both apps:
`prog_df.dropna(subset=[category])` then `prog_df[prog_df[category] <= marks]`. -/
def eligibleRows (cat : String) (marks : ℚ) (rows : List Row) : List Row :=
  (dropna cat rows).filter (eligPred cat marks)

/-- The sort key used for the category column (rows reaching the sorts have
a present value, so the default is never observed). -/
def rowKey (cat : String) (r : Row) : ℚ :=
  (r.lookupVal cat).getD 0

/-- `sort_values(by=key, ascending=True)`: stable ascending sort by the
key column (modelled by the stable `List.insertionSort`). -/
def sortAscBy (key : α → ℚ) (l : List α) : List α :=
  l.insertionSort (fun a b => key a ≤ key b)

/-- `sort_values(by=key, ascending=False)`: pandas' `nargsort` reverses the
values and their indices, takes the stable ascending argsort, and reverses
the resulting indexer again, so the descending sort is the reverse of a
stable ascending sort of the reversed input. The double reversal makes it a
stable descending sort: tied rows keep their original order. -/
def sortDescBy (key : α → ℚ) (l : List α) : List α :=
  (l.reverse.insertionSort (fun a b => key a ≤ key b)).reverse

/-- One row of the eligible result frame: the inserted 1-based rank, the
original table row, and the `Marks Above Cutoff` margin column. -/
structure EligRow where
  rank : Nat
  row : Row
  margin : ℚ
deriving Repr, DecidableEq

/-- `eligible_df.insert(0, "Rank", range(1, len(eligible_df) + 1))` together
with the margin column, applied after the descending sort. -/
def assignRanks (marks : ℚ) (cat : String) : Nat → List Row → List EligRow
  | _, [] => []
  | i, r :: rs => ⟨i, r, marks - rowKey cat r⟩ :: assignRanks marks cat (i + 1) rs

/-- The ranking engine applied to the eligible rows: compute the margin
column, sort descending by it, then insert the 1-based rank column. -/
def rankEligible (marks : ℚ) (cat : String) (rows : List Row) : List EligRow :=
  assignRanks marks cat 1 (sortDescBy (fun r => marks - rowKey cat r) rows)

/-- The nearest-miss reference list of tab 1:
`prog_df.dropna(subset=[category]).sort_values(by=category).head(6)`. -/
def nearestMissList (cat : String) (rows : List Row) : List Row :=
  (sortAscBy (rowKey cat) (dropna cat rows)).take 6

/-- Outcome of the tab-1 preference finder of `main_app.py`, one
constructor per user-facing branch. -/
inductive Outcome where
  | dataUnavailable
  | noData
  | categoryUnavailable
  | nearestMiss (near : List Row)
  | ranked (entries : List EligRow)
deriving Repr, DecidableEq

/-- The tab-1 preference finder of `main_app.py`: guard on a missing
dataset, filter by program (and allowlist), report an absent category
column, drop missing values, filter by the cutoff; an empty eligible set
yields the nearest-miss list, otherwise the ranked list. -/
def findPreferences (df : CutoffTable) (marks : ℚ) (category program : String)
    (girls_only : Bool) (girls : List String) : Outcome :=
  if df.rows.isEmpty then .dataUnavailable
  else
    let prog_df := filter_program_df df program girls_only girls
    if prog_df.rows.isEmpty then .noData
    else if category ∈ prog_df.cols then
      let eligible := eligibleRows category marks prog_df.rows
      if eligible.isEmpty then .nearestMiss (nearestMissList category prog_df.rows)
      else .ranked (rankEligible marks category eligible)
    else .categoryUnavailable

/-- Outcome of the `du_pref_app.py` flow (it has no nearest-miss branch). -/
inductive DuOutcome where
  | categoryUnavailable
  | noEligible
  | ranked (entries : List EligRow)
deriving Repr, DecidableEq

/-- The preference finder of `du_pref_app.py`: filter by program (and
allowlist), check the literal category string against the normalised
columns, then drop missing values, filter, sort and rank. -/
def duFindPreferences (df : CutoffTable) (marks : ℚ) (category program : String)
    (girls_only : Bool) (girls : List String) : DuOutcome :=
  let f := df.rows.filter (fun r => lowerStr r.program == lowerStr program)
  let filtered := if girls_only then f.filter (fun r => girls.contains r.college) else f
  if category ∈ df.cols then
    let eligible := eligibleRows category marks filtered
    if eligible.isEmpty then .noEligible
    else .ranked (rankEligible marks category eligible)
  else .categoryUnavailable

/-- The distinct colleges of a table, used as the `groupby` keys. The
aggregate below is an unordered mapping, so first-appearance order of the
keys is immaterial to the stated properties. -/
def collegesOf (t : CutoffTable) : List String :=
  (t.rows.map (·.college)).dedup

/-- The present (non-missing) cutoff values of one college for a
category. -/
def presentValues (t : CutoffTable) (cat : String) (college : String) : List ℚ :=
  t.rows.filterMap (fun r => if r.college = college then r.lookupVal cat else none)

/-- `df.groupby("COLLEGE NAME")[cat].mean().dropna()`: each college maps to
the mean of its present values (pandas `mean` skips NaN); a college whose
values are all missing has mean NaN and is removed by `dropna`. -/
def averageByCollege (t : CutoffTable) (cat : String) : List (String × ℚ) :=
  (collegesOf t).filterMap (fun c =>
    let vs := presentValues t cat c
    if vs.isEmpty then none else some (c, vs.sum / (vs.length : ℚ)))

/-- The CSV download `eligible_df.to_csv(index=False)`: the eligible frame
holds the inserted `Rank` column first, then every column of the loaded
table in its original order, then the `Marks Above Cutoff` column. -/
def cellFor (r : Row) (c : String) : Cell :=
  if c = "COLLEGE NAME" then .str r.college
  else if c = "PROGRAM NAME" then .str r.program
  else Cell.ofOptQ (r.lookupVal c)

/-- Serialise the eligible frame to a raw CSV table. -/
def exportCSV (cols : List String) (entries : List EligRow) : RawTable :=
  { header := "Rank" :: cols ++ ["Marks Above Cutoff"]
    body := entries.map (fun e =>
      .num (e.rank : ℚ) :: cols.map (cellFor e.row) ++ [.num e.margin]) }

/-- Scenario row (CollegeA, ProgA, UR=590). -/
def rowA : Row := ⟨"CollegeA", "ProgA", [("UR", some 590)]⟩

/-- Scenario row (CollegeB, ProgA, UR=610). -/
def rowB : Row := ⟨"CollegeB", "ProgA", [("UR", some 610)]⟩

/-- Scenario table with the two rows above. -/
def tblA : CutoffTable := ⟨["COLLEGE NAME", "PROGRAM NAME", "UR"], [rowA, rowB]⟩

/-- Tie row (CollegeX, ProgA, UR=590). -/
def rowX : Row := ⟨"CollegeX", "ProgA", [("UR", some 590)]⟩

/-- Tie row (CollegeY, ProgA, UR=590): same cutoff as `rowX`, so both have
the same margin for any score. -/
def rowY : Row := ⟨"CollegeY", "ProgA", [("UR", some 590)]⟩

/-- The margin key of the descending sort at score 600 for category UR. -/
def marginKey (r : Row) : ℚ := 600 - rowKey "UR" r

/-- A raw CSV whose category column is spelled `PwBD`, as in the documented
schema. -/
def pwbdRaw : RawTable :=
  { header := ["COLLEGE NAME", "PROGRAM NAME", "PwBD"]
    body := [[.str "CollegeA", .str "ProgA", .num 500]] }

/-- A girls-only scenario row for a college on the allowlist. -/
def rowW : Row := ⟨"Miranda House", "ProgA", [("UR", some 700)]⟩


/-- Membership in the eligible set: present value and value at most the score. -/
theorem mem_eligibleRows {cat : String} {marks : ℚ} {rows : List Row} {r : Row} :
    r ∈ eligibleRows cat marks rows ↔
      r ∈ rows ∧ ∃ v, r.lookupVal cat = some v ∧ v ≤ marks := by
  simp only [eligibleRows, dropna, List.mem_filter, and_assoc]
  cases h : r.lookupVal cat <;> simp [eligPred, h]

/-- Rank assignment preserves the number of rows. -/
theorem length_assignRanks (marks : ℚ) (cat : String) :
    ∀ (i : Nat) (l : List Row), (assignRanks marks cat i l).length = l.length
  | _, [] => rfl
  | i, _ :: rs => by simp [assignRanks, length_assignRanks marks cat (i + 1) rs]

/-- The assigned ranks are the consecutive integers starting at the seed. -/
theorem assignRanks_map_rank (marks : ℚ) (cat : String) :
    ∀ (i : Nat) (l : List Row),
      (assignRanks marks cat i l).map (·.rank) = List.range' i l.length
  | _, [] => rfl
  | i, _ :: rs => by
      simp [assignRanks, List.range', assignRanks_map_rank marks cat (i + 1) rs]

/-- Every produced entry wraps an input row and carries its margin. -/
theorem mem_assignRanks {marks : ℚ} {cat : String} :
    ∀ {i : Nat} {l : List Row} {e : EligRow}, e ∈ assignRanks marks cat i l →
      e.row ∈ l ∧ e.margin = marks - rowKey cat e.row := by
  intro i l
  induction l generalizing i with
  | nil => intro e h; simp [assignRanks] at h
  | cons r rs ih =>
      intro e h
      simp only [assignRanks, List.mem_cons] at h
      rcases h with rfl | h
      · exact ⟨List.mem_cons_self _ _, rfl⟩
      · rcases ih h with ⟨h1, h2⟩
        exact ⟨List.mem_cons_of_mem _ h1, h2⟩

/-- Rank assignment transports the margin ordering of the input rows. -/
theorem assignRanks_pairwise_margin {marks : ℚ} {cat : String} :
    ∀ (i : Nat) {l : List Row},
      l.Pairwise (fun a b => marks - rowKey cat b ≤ marks - rowKey cat a) →
      (assignRanks marks cat i l).Pairwise (fun a b => b.margin ≤ a.margin) := by
  intro i l
  induction l generalizing i with
  | nil => intro _; simp [assignRanks]
  | cons r rs ih =>
      intro h
      rcases List.pairwise_cons.mp h with ⟨hr, hrs⟩
      refine List.pairwise_cons.mpr ⟨?_, ih (i + 1) hrs⟩
      intro e he
      rcases mem_assignRanks he with ⟨h1, h2⟩
      simpa [h2] using hr e.row h1

/-- The descending sort permutes its input. -/
theorem mem_sortDescBy {key : α → ℚ} {l : List α} {a : α} :
    a ∈ sortDescBy key l ↔ a ∈ l := by
  simp [sortDescBy, List.mem_insertionSort]

/-- The descending sort orders its output non-increasingly by the key. -/
theorem pairwise_sortDescBy (key : α → ℚ) (l : List α) :
    (sortDescBy key l).Pairwise (fun a b => key b ≤ key a) := by
  haveI : IsTotal α (fun a b => key a ≤ key b) := ⟨fun a b => le_total (key a) (key b)⟩
  haveI : IsTrans α (fun a b => key a ≤ key b) := ⟨fun _ _ _ h h' => le_trans h h'⟩
  simp only [sortDescBy, List.pairwise_reverse]
  exact List.sorted_insertionSort (fun a b => key a ≤ key b) l.reverse

set_option maxRecDepth 40000 in
/-- Claim C1: a record is in the eligible set iff its value for the requested
category is present and at most the score; on the scenario table with rows
(CollegeA, ProgA, UR=590) and (CollegeB, ProgA, UR=610), the query
(ProgA, UR, score 600) yields exactly CollegeA with margin 10 and rank 1,
and CollegeB is excluded. -/
theorem c1_thm :
    (∀ (df : CutoffTable) (program cat : String) (marks : ℚ) (g : Bool)
        (girls : List String) (r : Row),
      r ∈ eligibleRows cat marks (filter_program_df df program g girls).rows ↔
        r ∈ (filter_program_df df program g girls).rows
        ∧ ∃ v, r.lookupVal cat = some v ∧ v ≤ marks)
    ∧ findPreferences tblA 600 "UR" "ProgA" false girls_colleges
        = .ranked [⟨1, rowA, 10⟩] := by
  constructor
  · intro df program cat marks g girls r; exact mem_eligibleRows
  · with_unfolding_all decide

/-- Witness for claim C1 at the scenario table. -/
theorem c1_witness :
    rowA ∈ eligibleRows "UR" 600
      (filter_program_df tblA "ProgA" false girls_colleges).rows :=
  (c1_thm.1 tblA "ProgA" "UR" 600 false girls_colleges rowA).mpr
    ⟨by decide, 590, by decide, by decide⟩

/-- Claim C2: for every ranked result, each entry's margin equals the score
minus its cutoff value and is nonnegative, the entries are ordered
non-increasing by margin, and the assigned ranks are exactly 1, 2, ..., n in
list order. -/
theorem c2_thm (marks : ℚ) (cat : String) (rows : List Row) :
    (∀ e ∈ rankEligible marks cat (eligibleRows cat marks rows),
        ∃ v, e.row.lookupVal cat = some v ∧ e.margin = marks - v ∧ 0 ≤ e.margin)
    ∧ (rankEligible marks cat (eligibleRows cat marks rows)).Pairwise
        (fun a b => b.margin ≤ a.margin)
    ∧ (rankEligible marks cat (eligibleRows cat marks rows)).map (·.rank)
        = List.range' 1 (rankEligible marks cat (eligibleRows cat marks rows)).length := by
  refine ⟨?_, ?_, ?_⟩
  · intro e he
    rcases mem_assignRanks he with ⟨h1, h2⟩
    rcases mem_eligibleRows.mp (mem_sortDescBy.mp h1) with ⟨-, v, hv, hvm⟩
    refine ⟨v, hv, ?_, ?_⟩
    · rw [h2, rowKey, hv]; rfl
    · rw [h2, rowKey, hv]
      exact sub_nonneg.mpr hvm
  · exact assignRanks_pairwise_margin 1 (pairwise_sortDescBy _ _)
  · rw [rankEligible, assignRanks_map_rank, length_assignRanks]

set_option maxRecDepth 40000 in
/-- Witness for claim C2 at the scenario table's single eligible entry. -/
theorem c2_witness :
    ∃ v, rowA.lookupVal "UR" = some v ∧ (10:ℚ) = 600 - v ∧ (0:ℚ) ≤ 10 := by
  have h := (c2_thm 600 "UR" [rowA, rowB]).1 ⟨1, rowA, 10⟩ (by
    with_unfolding_all decide)
  simpa using h

/-- The descending sort is stable: the double reversal around the stable
ascending sort keeps a pair of entries with equal keys in its original
relative order. -/
theorem sortDescBy_keeps_ties {α : Type _} (key : α → ℚ) {l : List α} {a b : α}
    (hab : key a = key b) (h : List.Sublist [a, b] l) :
    List.Sublist [a, b] (sortDescBy key l) := by
  haveI : IsTotal α (fun a b => key a ≤ key b) := ⟨fun a b => le_total (key a) (key b)⟩
  haveI : IsTrans α (fun a b => key a ≤ key b) := ⟨fun _ _ _ h h' => le_trans h h'⟩
  have h1 : List.Sublist [b, a] l.reverse := by simpa using h.reverse
  have h2 : List.Sublist [b, a] (l.reverse.insertionSort (fun a b => key a ≤ key b)) :=
    List.pair_sublist_insertionSort (le_of_eq hab.symm) h1
  simpa [sortDescBy] using h2.reverse

/-- Re-sorting a sorted list returns it unchanged: the inner output is
descending-sorted, so its reversal is ascending-sorted and the stable
ascending sort leaves it in place. -/
theorem sortDescBy_idempotent (key : α → ℚ) (l : List α) :
    sortDescBy key (sortDescBy key l) = sortDescBy key l := by
  haveI : IsTotal α (fun a b => key a ≤ key b) := ⟨fun a b => le_total (key a) (key b)⟩
  haveI : IsTrans α (fun a b => key a ≤ key b) := ⟨fun _ _ _ h h' => le_trans h h'⟩
  have hs : (l.reverse.insertionSort (fun a b => key a ≤ key b)).Sorted
      (fun a b => key a ≤ key b) :=
    List.sorted_insertionSort (fun a b => key a ≤ key b) l.reverse
  simp only [sortDescBy, List.reverse_reverse]
  rw [hs.insertionSort_eq]

/-- Claim C3: the ranking sort is stable — entries with exactly equal
margins appear in the output in their original table order, and sorting an
already-sorted qualifying set again yields the identical order. -/
theorem c3_thm (key : α → ℚ) (l : List α) :
    (∀ a b, key a = key b → List.Sublist [a, b] l →
      List.Sublist [a, b] (sortDescBy key l))
    ∧ sortDescBy key (sortDescBy key l) = sortDescBy key l :=
  ⟨fun _ _ hab h => sortDescBy_keeps_ties key hab h, sortDescBy_idempotent key l⟩

set_option maxRecDepth 40000 in
/-- Witness for claim C3 at the concrete tied pair: both rows carry margin
10 at score 600, the ranking keeps them in table order, and re-sorting
changes nothing. -/
theorem c3_witness :
    marginKey rowX = marginKey rowY
    ∧ List.Sublist [rowX, rowY] (sortDescBy marginKey [rowX, rowY])
    ∧ sortDescBy marginKey (sortDescBy marginKey [rowX, rowY])
        = sortDescBy marginKey [rowX, rowY]
    ∧ (rankEligible 600 "UR" [rowX, rowY]).map (·.row) = [rowX, rowY]
    ∧ (rankEligible 600 "UR" [rowX, rowY]).map (·.margin) = [10, 10] := by
  have hk : marginKey rowX = marginKey rowY := by with_unfolding_all decide
  exact ⟨hk, (c3_thm marginKey [rowX, rowY]).1 rowX rowY hk (List.Sublist.refl _),
    (c3_thm marginKey [rowX, rowY]).2,
    by with_unfolding_all decide, by with_unfolding_all decide⟩

/-- Claim C4: when the requested category is not a column of the filtered
table the finder reports the distinct category-unavailable outcome, while a
present column with zero qualifying rows takes the nearest-miss path; the
two outcomes are different constructors. -/
theorem c4_thm (df : CutoffTable) (marks : ℚ) (category program : String)
    (g : Bool) (girls : List String) :
    (¬ (filter_program_df df program g girls).rows.isEmpty →
       category ∉ (filter_program_df df program g girls).cols →
       findPreferences df marks category program g girls = .categoryUnavailable)
    ∧ (¬ (filter_program_df df program g girls).rows.isEmpty →
       category ∈ (filter_program_df df program g girls).cols →
       eligibleRows category marks (filter_program_df df program g girls).rows = [] →
       ∃ near, findPreferences df marks category program g girls = .nearestMiss near)
    ∧ (∀ near, Outcome.categoryUnavailable ≠ Outcome.nearestMiss near) := by
  have hdf : ∀ _h : ¬ (filter_program_df df program g girls).rows.isEmpty,
      df.rows.isEmpty = false := by
    intro h
    by_cases hd : df.rows.isEmpty
    · exfalso; apply h; simp [filter_program_df, hd]
    · simpa using hd
  refine ⟨?_, ?_, ?_⟩
  · intro h1 h2
    simp only [findPreferences, hdf h1, Bool.false_eq_true, if_false]
    rw [if_neg (by simpa using h1), if_neg h2]
  · intro h1 h2 h3
    refine ⟨nearestMissList category (filter_program_df df program g girls).rows, ?_⟩
    simp only [findPreferences, hdf h1, Bool.false_eq_true, if_false]
    rw [if_neg (by simpa using h1), if_pos h2, if_pos (by simpa using h3)]
  · intro near h
    exact Outcome.noConfusion h

/-- Witness for claim C4: an absent ST column versus an empty eligible set. -/
theorem c4_witness :
    findPreferences tblA 600 "ST" "ProgA" false girls_colleges = .categoryUnavailable
    ∧ ∃ near, findPreferences tblA 580 "UR" "ProgA" false girls_colleges
        = .nearestMiss near := by
  constructor
  · exact (c4_thm tblA 600 "ST" "ProgA" false girls_colleges).1 (by decide) (by decide)
  · exact (c4_thm tblA 580 "UR" "ProgA" false girls_colleges).2.1 (by decide) (by decide)
      (by decide)

/-- Claim C6 fails for the loader of du_pref_app.py: on an absent source
file it propagates the file-not-found error instead of returning an empty
table. -/
theorem c6_counterexample : du_load_data none = .error "FileNotFoundError" := rfl

/-- Claim C6 (amended): the loader of main_app.py returns an empty table
for an absent file, and the downstream operations on that empty table all
return empty results (the finder reports the data-unavailable outcome). -/
theorem c6_thm :
    load_cutoff_data none = ⟨[], []⟩
    ∧ (∀ prog g girls, (filter_program_df (load_cutoff_data none) prog g girls).rows = [])
    ∧ (∀ marks cat prog g girls,
        findPreferences (load_cutoff_data none) marks cat prog g girls = .dataUnavailable)
    ∧ (∀ cat, averageByCollege (load_cutoff_data none) cat = [])
    ∧ (∀ cat, nearestMissList cat (load_cutoff_data none).rows = []) := by
  refine ⟨rfl, ?_, ?_, ?_, ?_⟩ <;> intros <;> rfl

/-- Witness for the amended claim C6 at a concrete query. -/
theorem c6_witness :
    findPreferences (load_cutoff_data none) 600 "UR" "ProgA" false girls_colleges
      = .dataUnavailable :=
  c6_thm.2.2.1 600 "UR" "ProgA" false girls_colleges

/-- The ascending sort orders its output non-decreasingly by the key. -/
theorem pairwise_sortAscBy (key : α → ℚ) (l : List α) :
    (sortAscBy key l).Pairwise (fun a b => key a ≤ key b) := by
  haveI : IsTotal α (fun a b => key a ≤ key b) := ⟨fun a b => le_total (key a) (key b)⟩
  haveI : IsTrans α (fun a b => key a ≤ key b) := ⟨fun _ _ _ h h' => le_trans h h'⟩
  exact List.sorted_insertionSort (fun a b => key a ≤ key b) l

/-- Nearest-miss rows come from the input and have a present cutoff. -/
theorem mem_nearestMissList {cat : String} {rows : List Row} {r : Row}
    (h : r ∈ nearestMissList cat rows) :
    r ∈ rows ∧ (r.lookupVal cat).isSome := by
  have h1 := List.mem_of_mem_take h
  rw [sortAscBy, List.mem_insertionSort] at h1
  rw [dropna, List.mem_filter] at h1
  exact h1

/-- Claim C7: the nearest-miss finder is total; its output has length at
most 6, is sorted non-decreasing by the category's cutoff value, contains no
record with a missing cutoff, and is empty on the empty input. -/
theorem c7_thm (cat : String) (rows : List Row) :
    (nearestMissList cat rows).length ≤ 6
    ∧ (nearestMissList cat rows).Pairwise (fun a b => rowKey cat a ≤ rowKey cat b)
    ∧ (∀ r ∈ nearestMissList cat rows, (r.lookupVal cat).isSome)
    ∧ nearestMissList cat [] = [] := by
  refine ⟨List.length_take_le _ _, ?_, ?_, rfl⟩
  · exact (pairwise_sortAscBy (rowKey cat) (dropna cat rows)).sublist
      (List.take_sublist _ _)
  · intro r hr
    exact (mem_nearestMissList hr).2

/-- Witness for claim C7 on a concrete two-row input. -/
theorem c7_witness :
    (nearestMissList "UR" [rowB, rowA]).length ≤ 6
    ∧ (rowA.lookupVal "UR").isSome := by
  refine ⟨(c7_thm "UR" [rowB, rowA]).1, ?_⟩
  exact (c7_thm "UR" [rowB, rowA]).2.2.1 rowA (by decide)

/-- Claim C10: whenever a girls-only query ends in the nearest-miss outcome,
every college in the reference list is on the girls-only allowlist. -/
theorem c10_thm (df : CutoffTable) (marks : ℚ) (cat prog : String)
    (girls : List String) (near : List Row)
    (h : findPreferences df marks cat prog true girls = .nearestMiss near) :
    ∀ r ∈ near, r.college ∈ girls := by
  intro r hr
  by_cases h0 : df.rows.isEmpty
  · simp [findPreferences, h0] at h
  · by_cases h1 : (filter_program_df df prog true girls).rows.isEmpty
    · simp [findPreferences, h0, h1] at h
    · by_cases h2 : cat ∈ (filter_program_df df prog true girls).cols
      · by_cases h3 : (eligibleRows cat marks (filter_program_df df prog true girls).rows).isEmpty
        · simp [findPreferences, h0, h1, h2, h3] at h
          subst h
          have hm := (mem_nearestMissList hr).1
          rw [filter_program_df, if_neg (by simpa using h0)] at hm
          simp only [if_true, List.mem_filter] at hm
          simpa using hm.2
        · simp [findPreferences, h0, h1, h2, h3] at h
      · simp [findPreferences, h0, h1, h2] at h

/-- Witness for claim C10 on a concrete allowlisted college. -/
theorem c10_witness :
    findPreferences ⟨["COLLEGE NAME", "PROGRAM NAME", "UR"], [rowW]⟩ 500 "UR" "ProgA"
        true girls_colleges = .nearestMiss [rowW]
    ∧ rowW.college ∈ girls_colleges := by
  have hfp : findPreferences ⟨["COLLEGE NAME", "PROGRAM NAME", "UR"], [rowW]⟩ 500 "UR"
      "ProgA" true girls_colleges = .nearestMiss [rowW] := by decide
  refine ⟨hfp, ?_⟩
  exact c10_thm _ 500 "UR" "ProgA" girls_colleges [rowW] hfp rowW (by decide)

set_option maxRecDepth 40000 in
/-- Claim C5 is right and du_pref_app.py is wrong: its loader upper-cases
the columns but its coercion loop and category check use the literal PwBD
spelling, so a table carrying a PwBD column is reported category-unavailable
instead of being evaluated; main_app.py (upper-cased PWBD) finds the column,
coerces it and ranks the eligible college. -/
theorem c5_thm :
    du_load_data (some pwbdRaw)
      = .ok ⟨["COLLEGE NAME", "PROGRAM NAME", "PWBD"], [⟨"CollegeA", "ProgA", []⟩]⟩
    ∧ duFindPreferences ⟨["COLLEGE NAME", "PROGRAM NAME", "PWBD"], [⟨"CollegeA", "ProgA", []⟩]⟩
        600 "PwBD" "ProgA" false girls_colleges = .categoryUnavailable
    ∧ load_cutoff_data (some pwbdRaw)
      = ⟨["COLLEGE NAME", "PROGRAM NAME", "PWBD"],
          [⟨"CollegeA", "ProgA", [("PWBD", some 500)]⟩]⟩
    ∧ findPreferences (load_cutoff_data (some pwbdRaw)) 600 "PWBD" "ProgA" false
        girls_colleges
        = .ranked [⟨1, ⟨"CollegeA", "ProgA", [("PWBD", some 500)]⟩, 100⟩] := by
  exact ⟨by rfl, by decide, by rfl, by with_unfolding_all decide⟩

/-- Membership in the college-average mapping. -/
theorem mem_averageByCollege {t : CutoffTable} {cat : String} {c : String} {m : ℚ} :
    (c, m) ∈ averageByCollege t cat ↔
      (c ∈ collegesOf t ∧ presentValues t cat c ≠ []
       ∧ m = (presentValues t cat c).sum / ((presentValues t cat c).length : ℚ)) := by
  simp only [averageByCollege, List.mem_filterMap]
  constructor
  · rintro ⟨c', hc', hif⟩
    by_cases he : (presentValues t cat c').isEmpty
    · simp [he] at hif
    · simp only [he, if_false, Option.some_inj, Prod.mk.injEq] at hif
      rcases hif with ⟨rfl, rfl⟩
      exact ⟨hc', by simpa using he, rfl⟩
  · rintro ⟨hc, hne, rfl⟩
    refine ⟨c, hc, ?_⟩
    simp [List.isEmpty_iff, hne]

/-- A college absent from the table has no present values. -/
theorem presentValues_eq_nil_of_not_mem {t : CutoffTable} {cat : String} {c : String}
    (h : c ∉ collegesOf t) : presentValues t cat c = [] := by
  rw [presentValues, List.filterMap_eq_nil_iff]
  intro r hr
  have hne : r.college ≠ c := by
    intro he
    apply h
    rw [collegesOf, List.mem_dedup]
    exact he ▸ List.mem_map_of_mem (·.college) hr
  simp [hne]

/-- Claim C9: the college-average mapping sends each college to the mean of
its present cutoff values; missing values are excluded from both the sum
and the count, so appending a row whose value is missing leaves the whole
mapping unchanged (rather than contributing a zero). -/
theorem c9_thm (t : CutoffTable) (cat : String) :
    (∀ c m, (c, m) ∈ averageByCollege t cat ↔
      (c ∈ collegesOf t ∧ presentValues t cat c ≠ []
       ∧ m = (presentValues t cat c).sum / ((presentValues t cat c).length : ℚ)))
    ∧ (∀ r, r.lookupVal cat = none → ∀ c m,
        ((c, m) ∈ averageByCollege ⟨t.cols, t.rows ++ [r]⟩ cat ↔
         (c, m) ∈ averageByCollege t cat)) := by
  refine ⟨fun c m => mem_averageByCollege, ?_⟩
  intro r hr c m
  have hpv : ∀ c', presentValues ⟨t.cols, t.rows ++ [r]⟩ cat c' = presentValues t cat c' := by
    intro c'
    simp only [presentValues, List.filterMap_append]
    have : List.filterMap (fun r' => if r'.college = c' then r'.lookupVal cat else none) [r]
        = [] := by
      simp [hr]
    rw [this, List.append_nil]
  have hcol : ∀ c', c' ∈ collegesOf ⟨t.cols, t.rows ++ [r]⟩ ↔
      (c' ∈ collegesOf t ∨ c' = r.college) := by
    intro c'
    simp [collegesOf, List.mem_dedup]
  rw [mem_averageByCollege, mem_averageByCollege, hpv, hcol]
  constructor
  · rintro ⟨hc | hc, hne, hm⟩
    · exact ⟨hc, hne, hm⟩
    · by_cases hmem : c ∈ collegesOf t
      · exact ⟨hmem, hne, hm⟩
      · exact absurd (presentValues_eq_nil_of_not_mem hmem) hne
  · rintro ⟨hc, hne, hm⟩
    exact ⟨Or.inl hc, hne, hm⟩

/-- Positional cell access on a cons of header and row. -/
theorem cellAt_cons (x : String) (cols : List String) (xc : Cell) (cells : List Cell)
    (c : String) :
    cellAt (x :: cols) (xc :: cells) c
      = if x = c then some xc else cellAt cols cells c := by
  by_cases h : x = c
  · simp [cellAt, colIdx, h]
  · simp only [cellAt, colIdx, h, if_false]
    cases hci : colIdx cols c with
    | none => simp
    | some i => simp

/-- Cell access in a block of columns rendered by a per-column function. -/
theorem cellAt_map_append : ∀ (cols : List String) (c : String), c ∈ cols →
    ∀ (f : String → Cell) (l₂ : List String) (cs₂ : List Cell),
    cellAt (cols ++ l₂) (cols.map f ++ cs₂) c = some (f c)
  | [], c, hc, _, _, _ => absurd hc (List.not_mem_nil c)
  | x :: cs, c, hc, f, l₂, cs₂ => by
    rw [List.cons_append, List.map_cons, List.cons_append, cellAt_cons]
    by_cases h : x = c
    · simp [h]
    · have hcs : c ∈ cs := by
        rcases List.mem_cons.mp hc with h' | h'
        · exact absurd h'.symm h
        · exact h'
      simp [h, cellAt_map_append cs c hcs f l₂ cs₂]

/-- Association lookup misses keys that were never emitted. -/
theorem lookup_filterMap_of_not_mem (cols2 : List String) (g : String → Option ℚ)
    (c : String) :
    ∀ (keys : List String), c ∉ keys →
      (keys.filterMap (fun k => if k ∈ cols2 then some (k, g k) else none)).lookup c = none
  | [], _ => rfl
  | k :: ks, hc => by
    have hck : c ≠ k := fun h => hc (h ▸ List.mem_cons_self k ks)
    have hks : c ∉ ks := fun h => hc (List.mem_cons_of_mem k h)
    have hbeq : (c == k) = false := beq_eq_false_iff_ne.mpr hck
    by_cases hk : k ∈ cols2
    · simp only [List.filterMap_cons, hk, if_true, List.lookup, hbeq]
      exact lookup_filterMap_of_not_mem cols2 g c ks hks
    · simp only [List.filterMap_cons, hk, if_false]
      exact lookup_filterMap_of_not_mem cols2 g c ks hks

/-- Association lookup over a guarded key list. -/
theorem lookup_filterMap_memGuard (cols2 : List String) (g : String → Option ℚ)
    (c : String) :
    ∀ (keys : List String), keys.Nodup → c ∈ keys →
      (keys.filterMap (fun k => if k ∈ cols2 then some (k, g k) else none)).lookup c
        = if c ∈ cols2 then some (g c) else none
  | [], _, hc => absurd hc (List.not_mem_nil c)
  | k :: ks, hnd, hc => by
    rcases List.nodup_cons.mp hnd with ⟨hk_ks, hnd'⟩
    by_cases hck : c = k
    · subst hck
      by_cases hk : c ∈ cols2
      · simp [List.filterMap_cons, hk, List.lookup]
      · simp only [List.filterMap_cons, hk, if_false]
        rw [lookup_filterMap_of_not_mem cols2 g c ks hk_ks]
    · have hcs : c ∈ ks := by
        rcases List.mem_cons.mp hc with h' | h'
        · exact absurd h' hck
        · exact h'
      have hbeq : (c == k) = false := beq_eq_false_iff_ne.mpr hck
      by_cases hk : k ∈ cols2
      · simp only [List.filterMap_cons, hk, if_true, List.lookup, hbeq]
        exact lookup_filterMap_memGuard cols2 g c ks hnd' hcs
      · simp only [List.filterMap_cons, hk, if_false]
        exact lookup_filterMap_memGuard cols2 g c ks hnd' hcs

/-- Numeric coercion inverts cell serialisation of an optional value. -/
theorem toNumeric_ofOptQ (v : Option ℚ) : (Cell.ofOptQ v).toNumeric = v := by
  cases v <;> rfl

/-- The schema column names are fixed by header normalisation. -/
theorem schema_norm_fixed (c : String)
    (h : c = "COLLEGE NAME" ∨ c = "PROGRAM NAME" ∨ c ∈ mainCats) :
    upperStr (trimStr c) = c := by
  rcases h with rfl | rfl | h
  · decide
  · decide
  · simp only [mainCats, List.mem_cons, List.not_mem_nil, or_false] at h
    rcases h with rfl | rfl | rfl | rfl | rfl | rfl <;> decide

/-- Header normalisation of an exported file. -/
theorem normHeader_export (cols : List String)
    (hs : ∀ c ∈ cols, upperStr (trimStr c) = c) :
    normHeader ("Rank" :: cols ++ ["Marks Above Cutoff"])
      = "RANK" :: cols ++ ["MARKS ABOVE CUTOFF"] := by
  simp only [normHeader, List.map_cons, List.map_append]
  rw [List.map_congr_left hs]
  have h1 : upperStr (trimStr "Rank") = "RANK" := by decide
  have h2 : upperStr (trimStr "Marks Above Cutoff") = "MARKS ABOVE CUTOFF" := by decide
  rw [h1, h2, List.map_id']
  simp

/-- Reloading an exported row preserves the college name. -/
theorem loadRow_export_college (cols : List String) (e : EligRow)
    (hcn : "COLLEGE NAME" ∈ cols) :
    (loadRow mainCats ("RANK" :: cols ++ ["MARKS ABOVE CUTOFF"])
        (Cell.num (e.rank : ℚ) :: cols.map (cellFor e.row) ++ [Cell.num e.margin])).college
      = e.row.college := by
  simp only [loadRow, List.cons_append]
  rw [cellAt_cons, if_neg (by decide), cellAt_map_append cols "COLLEGE NAME" hcn]
  simp [cellFor, Cell.asString]

/-- Reloading an exported row preserves the program name. -/
theorem loadRow_export_program (cols : List String) (e : EligRow)
    (hpn : "PROGRAM NAME" ∈ cols) :
    (loadRow mainCats ("RANK" :: cols ++ ["MARKS ABOVE CUTOFF"])
        (Cell.num (e.rank : ℚ) :: cols.map (cellFor e.row) ++ [Cell.num e.margin])).program
      = e.row.program := by
  simp only [loadRow, List.cons_append]
  rw [cellAt_cons, if_neg (by decide), cellAt_map_append cols "PROGRAM NAME" hpn]
  simp [cellFor, Cell.asString]

/-- Reloading an exported row preserves each category cutoff value. -/
theorem loadRow_export_lookupVal (cols : List String) (e : EligRow) (c : String)
    (hm : c ∈ mainCats) (hc : c ∈ cols) :
    (loadRow mainCats ("RANK" :: cols ++ ["MARKS ABOVE CUTOFF"])
        (Cell.num (e.rank : ℚ) :: cols.map (cellFor e.row) ++ [Cell.num e.margin])).lookupVal c
      = e.row.lookupVal c := by
  have hrank : "RANK" ≠ c := fun h => absurd (h ▸ hm) (by decide)
  have h1 : ¬ (c = "COLLEGE NAME") := by
    intro h; rw [h] at hm; exact absurd hm (by decide)
  have h2 : ¬ (c = "PROGRAM NAME") := by
    intro h; rw [h] at hm; exact absurd hm (by decide)
  simp only [loadRow, Row.lookupVal, List.cons_append]
  rw [lookup_filterMap_memGuard _ _ c mainCats (by decide) hm]
  have hc' : c ∈ "RANK" :: (cols ++ ["MARKS ABOVE CUTOFF"]) :=
    List.mem_cons_of_mem _ (List.mem_append_left _ hc)
  rw [if_pos hc', cellAt_cons, if_neg hrank, cellAt_map_append cols c hc]
  show (cellFor e.row c).toNumeric = e.row.lookupVal c
  simp only [cellFor, h1, h2, if_false, toNumeric_ofOptQ]

/-- Claim C8 fails on the code: the download serialises the whole eligible
frame, so a table with a second category column (OBC) yields a header with
six columns, not the claimed fixed five-column ordering. -/
theorem c8_counterexample :
    (exportCSV ["COLLEGE NAME", "PROGRAM NAME", "UR", "OBC"] [⟨1, rowA, 10⟩]).header
      ≠ ["Rank", "COLLEGE NAME", "PROGRAM NAME", "UR", "Marks Above Cutoff"] := by
  decide

/-- Claim C8 (amended): the export's column ordering is rank, then every
column of the table in original order, then margin; reloading the exported
file through the loader yields a table with the same college, program and
category cutoff values. -/
theorem c8_thm (cols : List String) (entries : List EligRow)
    (hs : ∀ c ∈ cols, c = "COLLEGE NAME" ∨ c = "PROGRAM NAME" ∨ c ∈ mainCats)
    (hcn : "COLLEGE NAME" ∈ cols) (hpn : "PROGRAM NAME" ∈ cols) :
    (exportCSV cols entries).header = "Rank" :: cols ++ ["Marks Above Cutoff"]
    ∧ (load_cutoff_data (some (exportCSV cols entries))).rows.map (·.college)
        = entries.map (·.row.college)
    ∧ (load_cutoff_data (some (exportCSV cols entries))).rows.map (·.program)
        = entries.map (·.row.program)
    ∧ ∀ c, c ∈ mainCats → c ∈ cols →
        (load_cutoff_data (some (exportCSV cols entries))).rows.map (fun r => r.lookupVal c)
          = entries.map (fun e => e.row.lookupVal c) := by
  have hnorm : normHeader (exportCSV cols entries).header
      = "RANK" :: cols ++ ["MARKS ABOVE CUTOFF"] :=
    normHeader_export cols (fun c hc => schema_norm_fixed c (hs c hc))
  have hrows : (load_cutoff_data (some (exportCSV cols entries))).rows
      = entries.map (fun e => loadRow mainCats ("RANK" :: cols ++ ["MARKS ABOVE CUTOFF"])
          (Cell.num (e.rank : ℚ) :: cols.map (cellFor e.row) ++ [Cell.num e.margin])) := by
    simp only [load_cutoff_data, exportCSV, List.map_map]
    rw [show normHeader ("Rank" :: cols ++ ["Marks Above Cutoff"])
        = "RANK" :: cols ++ ["MARKS ABOVE CUTOFF"] from hnorm]
    rfl
  refine ⟨rfl, ?_, ?_, ?_⟩
  · rw [hrows, List.map_map]
    exact List.map_congr_left (fun e _ => loadRow_export_college cols e hcn)
  · rw [hrows, List.map_map]
    exact List.map_congr_left (fun e _ => loadRow_export_program cols e hpn)
  · intro c hm hc
    rw [hrows, List.map_map]
    exact List.map_congr_left (fun e _ => loadRow_export_lookupVal cols e c hm hc)

set_option maxRecDepth 40000 in
/-- Witness for the amended claim C8 on a concrete one-entry export. -/
theorem c8_witness :
    (load_cutoff_data (some (exportCSV ["COLLEGE NAME", "PROGRAM NAME", "UR"]
        [⟨1, rowA, 10⟩]))).rows.map (·.college) = ["CollegeA"]
    ∧ (load_cutoff_data (some (exportCSV ["COLLEGE NAME", "PROGRAM NAME", "UR"]
        [⟨1, rowA, 10⟩]))).rows.map (fun r => r.lookupVal "UR") = [some 590] := by
  have h := c8_thm ["COLLEGE NAME", "PROGRAM NAME", "UR"] [⟨1, rowA, 10⟩]
    (by decide) (by decide) (by decide)
  constructor
  · rw [h.2.1]; decide
  · rw [h.2.2.2 "UR" (by decide) (by decide)]; decide

set_option maxRecDepth 100000 in
/-- Witness for claim C9 on the scenario table. -/
theorem c9_witness : ("CollegeA", (590:ℚ)) ∈ averageByCollege tblA "UR" :=
  ((c9_thm tblA "UR").1 "CollegeA" 590).mpr
    ⟨by decide, by decide, by with_unfolding_all decide⟩

end DuPref
